import Mathlib

/-!
# Verification of the site-geo DAO (`site_geo.dao.redis-implementation`)

Shallow embedding of the Redis-backed site DAO: the codec (`remap`/`flatten`),
the store model (hashes keyed by site id, the geo index, the capacity-ranking
sorted set, temporary sorted sets with expirations), and the five DAO
operations `insert`, `findById`, `findAll`, `findByGeo` and
`findByGeoWithExcessCapacity`.

Numeric values are modelled with `ℚ`.  Redis stores every hash value as a
string; the JS number-to-string serialization is injective on the numbers the
DAO writes and `parseFloat` recovers the serialized number exactly, so a stored
string is modelled by the constructor `RVal.num q` carrying the number `q` it
denotes, with `jsParseFloat` the exact inverse and `jsParseInt` truncating the
fractional part (what JS `parseInt` does on a decimal-serialized number).
-/

set_option autoImplicit false

namespace SiteGeoDAO

/-- A scalar value as stored in a Redis hash: always a string.  `num q` is the
decimal serialization of the number `q`. -/
inductive RVal where
  | num (q : ℚ)
  deriving DecidableEq, Repr

/-- JS `parseFloat` applied to the decimal serialization of a number recovers
the number exactly. -/
def jsParseFloat : RVal → ℚ
  | .num q => q

/-- JS `parseInt(s, 10)` applied to the decimal serialization of a number reads
its integer part: truncation toward zero. -/
def jsParseInt : RVal → Int
  | .num q => q.num.tdiv q.den

/-- A latitude/longitude pair, as in the site domain object. -/
structure Coordinate where
  lat : ℚ
  lng : ℚ
  deriving DecidableEq, Repr

/-- The site domain object: `id`, `panels`, `capacity`, optional
`coordinate`. -/
structure Site where
  id : Int
  panels : Int
  capacity : ℚ
  coordinate : Option Coordinate
  deriving DecidableEq, Repr

/-- A flat site record as held in a Redis hash: `id`, `panels` and `capacity`
fields are always present, the flat `lat`/`lng` fields may be absent. -/
structure SiteHash where
  id : RVal
  panels : RVal
  capacity : RVal
  lat : Option RVal
  lng : Option RVal
  deriving DecidableEq, Repr

/-- The object `remap` produces: numeric fields re-parsed, and either a grouped
`coordinate` (with the flat `lat`/`lng` fields deleted) or the original flat
`lat`/`lng` fields carried through unchanged. -/
structure DecodedSite where
  id : Int
  panels : Int
  capacity : ℚ
  coordinate : Option Coordinate
  lat : Option RVal
  lng : Option RVal
  deriving DecidableEq, Repr

/-- `remap(siteHash)`: spreads the hash, converts `id` and `panels` with
`parseInt` and `capacity` with `parseFloat`, and, only when both `lat` and
`lng` are present, groups them into a `coordinate` object and deletes the flat
fields. -/
def remap (siteHash : SiteHash) : DecodedSite :=
  let remapped : DecodedSite :=
    { id := jsParseInt siteHash.id
      panels := jsParseInt siteHash.panels
      capacity := jsParseFloat siteHash.capacity
      coordinate := none
      lat := siteHash.lat
      lng := siteHash.lng }
  match siteHash.lat, siteHash.lng with
  | some la, some ln =>
      { remapped with
          coordinate := some ⟨jsParseFloat la, jsParseFloat ln⟩
          lat := none
          lng := none }
  | _, _ => remapped

/-- `flatten(site)`: spreads the site and, when a `coordinate` is present,
moves it into sibling `lat`/`lng` fields and deletes `coordinate`.  The
resulting values are what HMSET serializes into the hash. -/
def flatten (site : Site) : SiteHash :=
  match site.coordinate with
  | some c =>
      { id := .num site.id
        panels := .num site.panels
        capacity := .num site.capacity
        lat := some (.num c.lat)
        lng := some (.num c.lng) }
  | none =>
      { id := .num site.id
        panels := .num site.panels
        capacity := .num site.capacity
        lat := none
        lng := none }

/-- The decode step at each lookup site:
`siteHash === null ? siteHash : remap(siteHash)` — the not-found sentinel
(`null`, modelled by `none`) is propagated unchanged, anything else is
remapped. -/
def remapOrNull : Option SiteHash → Option DecodedSite
  | none => none
  | some h => some (remap h)

/-! ## Store model

Association lists model each keyed structure: the site hashes (key =
`siteHashKey(id)`, represented by the id), the geo index and the capacity
ranking (sorted sets: member id with position / score), and the temporary
sorted sets (key = the fresh name from `temporaryKey()`).
-/

/-- First-match lookup in an association list (key present ↔ `some`). -/
def alookup {κ α : Type} [DecidableEq κ] (k : κ) : List (κ × α) → Option α
  | [] => none
  | p :: rest => if p.1 = k then some p.2 else alookup k rest

/-- Set a key to a value: overwrite the existing entry, or append a new
one. -/
def aset {κ α : Type} [DecidableEq κ] (k : κ) (v : α) :
    List (κ × α) → List (κ × α)
  | [] => [(k, v)]
  | p :: rest => if p.1 = k then (k, v) :: rest else p :: aset k v rest

/-- HMSET field semantics on an existing hash: every field present in the new
flat record overwrites the stored one, fields absent from the new record keep
their stored value.  (`flatten` always provides `id`, `panels` and `capacity`;
it provides `lat`/`lng` only when the site had a coordinate.) -/
def hmsetMerge (old f : SiteHash) : SiteHash :=
  { id := f.id
    panels := f.panels
    capacity := f.capacity
    lat := match f.lat with | some v => some v | none => old.lat
    lng := match f.lng with | some v => some v | none => old.lng }

/-- `HMSET siteHashKey(id) fields`: creates the hash, or overwrites the given
fields of an existing one. -/
def hmset (id : Int) (f : SiteHash) :
    List (Int × SiteHash) → List (Int × SiteHash)
  | [] => [(id, f)]
  | p :: rest =>
      if p.1 = id then (id, hmsetMerge p.2 f) :: rest else p :: hmset id f rest

/-- `GEOADD`: adds the member at the given position, or moves an existing
member there. -/
def geoadd (geo : List (Int × Coordinate)) (id : Int) (c : Coordinate) :
    List (Int × Coordinate) :=
  aset id c geo

/-- Modelled from the spec: the store-side geospatial semantics the DAO
consumes ("Geo: add member at coordinate, radius query (return ids), radius
query with server-side result storage into a named set").
`within lng lat pos radius unit` decides whether the member at `pos` lies
within `radius` `unit`s of the query point `(lat, lng)`; `score pos` is the
raw geohash score under which the geo index holds a member at `pos`. -/
structure GeoSem where
  within : ℚ → ℚ → Coordinate → ℚ → String → Bool
  score : Coordinate → ℚ

/-- JS `String.prototype.toLowerCase` over the ASCII unit names the DAO
accepts: lower-cases each character. -/
def jsToLowerCase (s : String) : String := ⟨s.data.map Char.toLower⟩

/-- The slice of the Redis keyspace this DAO touches.  The Key Namespace
Provider (`redis-key-generator`, whose source is not in the repository slice)
is modelled from the spec: `siteHashKey(id)` keys are the `Int` keys of
`hashes`, `siteGeoKey()` names `geo`, `capacityRankingKey()` names `ranking`,
and `temporaryKey()` "generates a fresh unique name each call" — the fresh
names are `0, 1, 2, ...`, tracked by the counter `nextTemp`.  `temps` holds
the temporary sorted sets and `expirations` the TTL (in seconds) set on each
temporary key. -/
structure Store where
  hashes : List (Int × SiteHash)
  geo : List (Int × Coordinate)
  ranking : List (Int × ℚ)
  temps : List (Nat × List (Int × ℚ))
  expirations : List (Nat × Nat)
  nextTemp : Nat
  deriving DecidableEq, Repr

/-- The store with no keys. -/
def emptyStore : Store := ⟨[], [], [], [], [], 0⟩

/-- `ZRANGE key 0 -1`: every member of the sorted set. -/
def zrangeAll {α : Type} (zset : List (Int × α)) : List Int := zset.map (·.1)

/-- `GEORADIUS` (no STORE): the ids of the members within the radius. -/
def georadiusIds (gs : GeoSem) (geo : List (Int × Coordinate))
    (lng lat radius : ℚ) (unit : String) : List Int :=
  (geo.filter (fun p => gs.within lng lat p.2 radius unit)).map (·.1)

/-- `GEORADIUS ... STORE dest`: the sorted set stored at the destination —
the members within the radius, each under its raw geohash score. -/
def georadiusStore (gs : GeoSem) (geo : List (Int × Coordinate))
    (lng lat radius : ℚ) (unit : String) : List (Int × ℚ) :=
  (geo.filter (fun p => gs.within lng lat p.2 radius unit)).map
    (fun p => (p.1, gs.score p.2))

/-- `ZINTERSTORE dest 2 a b WEIGHTS 0 1`: the members present in both sorted
sets; the combined score of a member is `0 × (score in a) + 1 × (score in
b)`. -/
def zinterstoreW01 (a b : List (Int × ℚ)) : List (Int × ℚ) :=
  a.filterMap (fun p => (alookup p.1 b).map (fun s2 => (p.1, 0 * p.2 + 1 * s2)))

/-- `ZRANGEBYSCORE key lo +inf`: the members whose score is at least `lo`
(the lower bound is inclusive). -/
def zrangebyscoreFrom (zset : List (Int × ℚ)) (lo : ℚ) : List Int :=
  (zset.filter (fun p => lo ≤ p.2)).map (·.1)

/-- Read a temporary sorted set; a missing key reads as the empty set. -/
def tget (temps : List (Nat × List (Int × ℚ))) (k : Nat) : List (Int × ℚ) :=
  (alookup k temps).getD []

/-! ## DAO operations

Each operation is the state-passing translation of the corresponding
function of the site-geo DAO: it returns its result together with the store
it leaves behind.  Redis read commands (HGETALL, ZRANGE, GEORADIUS without
STORE, ZRANGEBYSCORE) do not modify the store, so they appear as pure
functions of the store; the write commands (HMSET, GEOADD, GEORADIUS STORE,
ZINTERSTORE, EXPIRE) produce the new store.
-/

/-- Minimum capacity-ranking score for a site to be considered as having
excess capacity (`const capacityThreshold = 0.2`). -/
def capacityThreshold : ℚ := 0.2

/-- `insert(site)`: issues `HMSET siteHashKey(site.id) flatten(site)` first,
then checks for the coordinate — failing with
`Error('Coordinate required for site geo insert!')` when it is absent — and
only then issues `GEOADD siteGeoKey() lng lat id`, resolving to the hash key
(represented by the site id it is generated from). -/
def insert (st : Store) (site : Site) : Except String Int × Store :=
  let st1 : Store := { st with hashes := hmset site.id (flatten site) st.hashes }
  match site.coordinate with
  | none => (.error "Coordinate required for site geo insert!", st1)
  | some c => (.ok site.id, { st1 with geo := geoadd st1.geo site.id c })

/-- `findById(id)`: HGETALL at the site key; the null sentinel is returned
directly, anything else is remapped. -/
def findById (st : Store) (id : Int) : Option DecodedSite × Store :=
  (remapOrNull (alookup id st.hashes), st)

/-- The result-collection loop shared by `findAll`, `findByGeo` and
`findByGeoWithExcessCapacity`: for each id in order, HGETALL at its site key
and, when the result is not the null sentinel, push `remap` of it. -/
def fetchSites (hashes : List (Int × SiteHash)) : List Int → List DecodedSite
  | [] => []
  | id :: rest =>
      match alookup id hashes with
      | some h => remap h :: fetchSites hashes rest
      | none => fetchSites hashes rest

/-- `findAll()`: ZRANGE the geo index over the full range for all ids, then
fetch every hash in one batched pipeline and remap each non-null reply in
order. -/
def findAll (st : Store) : List DecodedSite × Store :=
  (fetchSites st.hashes (zrangeAll st.geo), st)

/-- `findByGeo(lat, lng, radius, radiusUnit)`: GEORADIUS with the lower-cased
unit for the ids within the radius, then sequential HGETALL/remap per id,
skipping null replies. -/
def findByGeo (gs : GeoSem) (st : Store) (lat lng radius : ℚ)
    (radiusUnit : String) : List DecodedSite × Store :=
  (fetchSites st.hashes
    (georadiusIds gs st.geo lng lat radius (jsToLowerCase radiusUnit)), st)

/-- `findByGeoWithExcessCapacity(lat, lng, radius, radiusUnit)`: allocates two
fresh temporary keys; in one batched pipeline (a) GEORADIUS with the
lower-cased unit, STOREd into the first key, (b) ZINTERSTORE of that key with
the capacity ranking under `WEIGHTS 0 1` into the second key, (c) EXPIRE of
both keys with a 30-second TTL; then ZRANGEBYSCORE the intersection from
`capacityThreshold` to `+inf`, and sequential HGETALL/remap per selected id,
skipping null replies. -/
def findByGeoWithExcessCapacity (gs : GeoSem) (st : Store)
    (lat lng radius : ℚ) (radiusUnit : String) : List DecodedSite × Store :=
  let sitesInRadiusKey := st.nextTemp
  let sitesInRadiusCapacityKey := st.nextTemp + 1
  let st1 : Store := { st with nextTemp := st.nextTemp + 2 }
  let st2 : Store := { st1 with
    temps := aset sitesInRadiusKey
      (georadiusStore gs st1.geo lng lat radius (jsToLowerCase radiusUnit))
      st1.temps }
  let st3 : Store := { st2 with
    temps := aset sitesInRadiusCapacityKey
      (zinterstoreW01 (tget st2.temps sitesInRadiusKey) st2.ranking)
      st2.temps }
  let st4 : Store := { st3 with
    expirations := aset sitesInRadiusCapacityKey 30
      (aset sitesInRadiusKey 30 st3.expirations) }
  let siteIds := zrangebyscoreFrom (tget st4.temps sitesInRadiusCapacityKey)
    capacityThreshold
  (fetchSites st4.hashes siteIds, st4)

/-- Inserting a list of sites in order, discarding the returned keys. -/
def insertAll (st : Store) : List Site → Store
  | [] => st
  | s :: rest => insertAll (insert st s).2 rest

/-! ## Concrete instances for evaluating the theorems -/

/-- A trivial geospatial semantics for instantiating theorems at concrete
inputs: every member is within every radius and every position has geohash
score 0. -/
def gsTrue : GeoSem := ⟨fun _ _ _ _ _ => true, fun _ => 0⟩

/-- A concrete site with a coordinate. -/
def site1 : Site := ⟨1, 2, 3, some ⟨0, 0⟩⟩

/-- A second concrete site with a coordinate and a distinct id. -/
def site2 : Site := ⟨2, 5, 7, some ⟨1, 2⟩⟩

/-- A concrete store holding `site1` in the hash space and the geo index,
with capacity-ranking score 1. -/
def stEx : Store := ⟨[(1, flatten site1)], [(1, ⟨0, 0⟩)], [(1, 1)], [], [], 0⟩

end SiteGeoDAO

namespace SiteGeoDAO

/-! ## Association-list and command lemmas -/

theorem alookup_aset_self {κ α : Type} [DecidableEq κ] (k : κ) (v : α)
    (l : List (κ × α)) : alookup k (aset k v l) = some v := by
  induction l with
  | nil => simp [aset, alookup]
  | cons p rest ih =>
      by_cases h : p.1 = k
      · simp [aset, h, alookup]
      · simp [aset, h, alookup, ih]

theorem alookup_aset_ne {κ α : Type} [DecidableEq κ] {k k' : κ} (v : α)
    (l : List (κ × α)) (h : k' ≠ k) :
    alookup k' (aset k v l) = alookup k' l := by
  induction l with
  | nil => simp [aset, alookup, Ne.symm h]
  | cons p rest ih =>
      by_cases hp : p.1 = k
      · subst hp
        simp [aset, alookup, Ne.symm h]
      · simp only [aset, if_neg hp, alookup]
        by_cases hp' : p.1 = k' <;> simp [hp', ih]

theorem aset_of_alookup_none {κ α : Type} [DecidableEq κ] {k : κ} (v : α)
    {l : List (κ × α)} (h : alookup k l = none) : aset k v l = l ++ [(k, v)] := by
  induction l with
  | nil => simp [aset]
  | cons p rest ih =>
      rw [alookup] at h
      by_cases hp : p.1 = k
      · simp [hp] at h
      · rw [if_neg hp] at h
        simp [aset, hp, ih h]

theorem alookup_append_of_none {κ α : Type} [DecidableEq κ] {k : κ}
    {l1 : List (κ × α)} (l2 : List (κ × α)) (h : alookup k l1 = none) :
    alookup k (l1 ++ l2) = alookup k l2 := by
  induction l1 with
  | nil => simp
  | cons p rest ih =>
      rw [alookup] at h
      by_cases hp : p.1 = k
      · simp [hp] at h
      · rw [if_neg hp] at h
        simp [alookup, hp, ih h]

theorem alookup_append_of_some {κ α : Type} [DecidableEq κ] {k : κ}
    {l1 : List (κ × α)} {v : α} (l2 : List (κ × α))
    (h : alookup k l1 = some v) : alookup k (l1 ++ l2) = some v := by
  induction l1 with
  | nil => simp [alookup] at h
  | cons p rest ih =>
      rw [alookup] at h
      by_cases hp : p.1 = k
      · rw [if_pos hp] at h
        simp [alookup, hp, h]
      · rw [if_neg hp] at h
        simp [alookup, hp, ih h]

theorem hmset_of_alookup_none {id : Int} {f : SiteHash}
    {l : List (Int × SiteHash)} (h : alookup id l = none) :
    hmset id f l = l ++ [(id, f)] := by
  induction l with
  | nil => simp [hmset]
  | cons p rest ih =>
      rw [alookup] at h
      by_cases hp : p.1 = id
      · simp [hp] at h
      · rw [if_neg hp] at h
        simp [hmset, hp, ih h]

theorem alookup_hmset_self (id : Int) (f : SiteHash)
    (l : List (Int × SiteHash)) :
    alookup id (hmset id f l) =
      some (match alookup id l with
            | some old => hmsetMerge old f
            | none => f) := by
  induction l with
  | nil => simp [hmset, alookup]
  | cons p rest ih =>
      by_cases hp : p.1 = id
      · simp [hmset, hp, alookup]
      · simp [hmset, hp, alookup, ih]

theorem alookup_hmset_ne {id key : Int} (f : SiteHash)
    (l : List (Int × SiteHash)) (h : id ≠ key) :
    alookup id (hmset key f l) = alookup id l := by
  induction l with
  | nil => simp [hmset, alookup, Ne.symm h]
  | cons p rest ih =>
      by_cases hp : p.1 = key
      · subst hp
        simp [hmset, alookup, Ne.symm h]
      · simp only [hmset, if_neg hp, alookup]
        by_cases hp' : p.1 = id <;> simp [hp', ih]

theorem hmsetMerge_of_full {old f : SiteHash} (hla : f.lat.isSome)
    (hln : f.lng.isSome) : hmsetMerge old f = f := by
  rcases f with ⟨fid, fp, fc, fla, fln⟩
  rcases fla with _ | la
  · simp at hla
  · rcases fln with _ | ln
    · simp at hln
    · rfl

theorem tget_aset_self (temps : List (Nat × List (Int × ℚ))) (k : Nat)
    (v : List (Int × ℚ)) : tget (aset k v temps) k = v := by
  simp [tget, alookup_aset_self]

theorem fetchSites_eq_filterMap (hashes : List (Int × SiteHash))
    (ids : List Int) :
    fetchSites hashes ids =
      ids.filterMap (fun id => (alookup id hashes).map remap) := by
  induction ids with
  | nil => rfl
  | cons id rest ih =>
      rw [fetchSites]
      rcases h : alookup id hashes with _ | hh <;>
        simp [List.filterMap_cons, h, ih]

theorem mem_fetchSites {hashes : List (Int × SiteHash)} {ids : List Int}
    {site : DecodedSite} :
    site ∈ fetchSites hashes ids ↔
      ∃ id, id ∈ ids ∧ ∃ h, alookup id hashes = some h ∧ site = remap h := by
  rw [fetchSites_eq_filterMap]
  simp only [List.mem_filterMap, Option.map_eq_some']
  constructor
  · rintro ⟨id, hid, h, hl, he⟩
    exact ⟨id, hid, h, hl, he.symm⟩
  · rintro ⟨id, hid, h, hl, he⟩
    exact ⟨id, hid, h, hl, he.symm⟩

theorem mem_zrangebyscoreFrom {zset : List (Int × ℚ)} {lo : ℚ} {id : Int} :
    id ∈ zrangebyscoreFrom zset lo ↔ ∃ s, (id, s) ∈ zset ∧ lo ≤ s := by
  simp only [zrangebyscoreFrom, List.mem_map, List.mem_filter]
  constructor
  · rintro ⟨⟨i, s⟩, ⟨hm, hle⟩, rfl⟩
    exact ⟨s, hm, by simpa using hle⟩
  · rintro ⟨s, hm, hle⟩
    exact ⟨(id, s), ⟨hm, by simpa using hle⟩, rfl⟩

theorem mem_zinterstoreW01 {a b : List (Int × ℚ)} {id : Int} {s : ℚ} :
    (id, s) ∈ zinterstoreW01 a b ↔
      ∃ s1, (id, s1) ∈ a ∧ ∃ s2, alookup id b = some s2 ∧
        s = 0 * s1 + 1 * s2 := by
  simp only [zinterstoreW01, List.mem_filterMap, Option.map_eq_some']
  constructor
  · rintro ⟨⟨i, s1⟩, hm, s2, hb, heq⟩
    rw [Prod.mk.injEq] at heq
    obtain ⟨h1, h2⟩ := heq
    subst h1
    exact ⟨s1, hm, s2, hb, h2.symm⟩
  · rintro ⟨s1, hm, s2, hb, rfl⟩
    exact ⟨(id, s1), hm, s2, hb, rfl⟩

theorem mem_georadiusStore {gs : GeoSem} {geo : List (Int × Coordinate)}
    {lng lat radius : ℚ} {u : String} {id : Int} {s1 : ℚ} :
    (id, s1) ∈ georadiusStore gs geo lng lat radius u ↔
      ∃ pos, (id, pos) ∈ geo ∧ gs.within lng lat pos radius u = true ∧
        s1 = gs.score pos := by
  simp only [georadiusStore, List.mem_map, List.mem_filter]
  constructor
  · rintro ⟨⟨i, pos⟩, ⟨hm, hw⟩, heq⟩
    rw [Prod.mk.injEq] at heq
    obtain ⟨h1, h2⟩ := heq
    subst h1
    exact ⟨pos, hm, hw, h2.symm⟩
  · rintro ⟨pos, hm, hw, rfl⟩
    exact ⟨(id, pos), ⟨hm, hw⟩, rfl⟩

/-- C3: decoding the encoding of a site that has a coordinate reproduces its
`id`, `panels`, `capacity` and `coordinate` fields exactly, through the
string-serialized intermediate record. -/
theorem remap_flatten_roundTrip (s : Site) (c : Coordinate)
    (hc : s.coordinate = some c) :
    (remap (flatten s)).id = s.id ∧
    (remap (flatten s)).panels = s.panels ∧
    (remap (flatten s)).capacity = s.capacity ∧
    (remap (flatten s)).coordinate = some c := by
  simp [flatten, hc, remap, jsParseInt, jsParseFloat,
    Rat.num_intCast, Rat.den_intCast, Int.tdiv_one]

/-- Witness for `remap_flatten_roundTrip` at a concrete site. -/
theorem remap_flatten_roundTrip_witness :
    (remap (flatten ⟨7, 3, 5/2, some ⟨1/3, -4⟩⟩)).id = 7 ∧
    (remap (flatten ⟨7, 3, 5/2, some ⟨1/3, -4⟩⟩)).panels = 3 ∧
    (remap (flatten ⟨7, 3, 5/2, some ⟨1/3, -4⟩⟩)).capacity = 5/2 ∧
    (remap (flatten ⟨7, 3, 5/2, some ⟨1/3, -4⟩⟩)).coordinate = some ⟨1/3, -4⟩ :=
  remap_flatten_roundTrip ⟨7, 3, 5/2, some ⟨1/3, -4⟩⟩ ⟨1/3, -4⟩ rfl

/-- C7: decode applied to the record-not-found sentinel propagates the
sentinel unchanged rather than decoding it. -/
theorem remapOrNull_sentinel : remapOrNull none = none := rfl

/-- C10: when exactly one of the flat `lat`/`lng` fields is present, `remap`
builds no coordinate object and carries both flat fields through unchanged. -/
theorem remap_one_sided (h : SiteHash)
    (hx : h.lat.isSome ≠ h.lng.isSome) :
    (remap h).coordinate = none ∧
    (remap h).lat = h.lat ∧ (remap h).lng = h.lng := by
  rcases hla : h.lat with _ | la <;> rcases hln : h.lng with _ | ln
  · simp [remap, hla, hln]
  · simp [remap, hla, hln]
  · simp [remap, hla, hln]
  · rw [hla, hln] at hx
    simp at hx

/-- Witness for `remap_one_sided` at a concrete one-sided record. -/
theorem remap_one_sided_witness :
    (remap ⟨.num 1, .num 2, .num 3, some (.num 9), none⟩).coordinate = none ∧
    (remap ⟨.num 1, .num 2, .num 3, some (.num 9), none⟩).lat = some (.num 9) ∧
    (remap ⟨.num 1, .num 2, .num 3, some (.num 9), none⟩).lng = none :=
  remap_one_sided ⟨.num 1, .num 2, .num 3, some (.num 9), none⟩ (by simp)

/-- C6: `findById` returns the not-found sentinel when the hash record is
absent — it never fails — and the decoded site when the record is
present. -/
theorem findById_sentinel_or_decodes (st : Store) (id : Int) :
    (alookup id st.hashes = none → (findById st id).1 = none) ∧
    (∀ h, alookup id st.hashes = some h →
      (findById st id).1 = some (remap h)) := by
  constructor
  · intro h
    simp [findById, h, remapOrNull]
  · intro h hh
    simp [findById, hh, remapOrNull]

/-- Witness for `findById_sentinel_or_decodes`: an id never inserted reads as
the sentinel on the empty store, and `site1`'s id decodes on `stEx`. -/
theorem findById_sentinel_or_decodes_witness :
    (findById emptyStore 42).1 = none ∧
    (findById stEx 1).1 = some (remap (flatten site1)) :=
  ⟨(findById_sentinel_or_decodes emptyStore 42).1 rfl,
   (findById_sentinel_or_decodes stEx 1).2 (flatten site1) rfl⟩

/-- C4: a successful `insert` leaves both the hash record at the site's id
and the geo-index entry for the same id at the site's position — neither
write is missing. -/
theorem insert_ok_both_writes (st : Store) (site : Site) (k : Int)
    (h : (insert st site).1 = .ok k) :
    ∃ c, site.coordinate = some c ∧
      alookup site.id ((insert st site).2).hashes = some (flatten site) ∧
      alookup site.id ((insert st site).2).geo = some c := by
  rcases hc : site.coordinate with _ | c
  · simp [insert, hc] at h
  · refine ⟨c, rfl, ?_, ?_⟩
    · have hfull : (flatten site).lat.isSome = true ∧
          (flatten site).lng.isSome = true := by
        simp [flatten, hc]
      rcases hold : alookup site.id st.hashes with _ | old
      · simp [insert, hc, alookup_hmset_self, hold]
      · simp [insert, hc, alookup_hmset_self, hold,
          hmsetMerge_of_full hfull.1 hfull.2]
    · simp [insert, hc, geoadd, alookup_aset_self]

/-- Witness for `insert_ok_both_writes` at `site1` on the empty store. -/
theorem insert_ok_both_writes_witness :
    ∃ c, site1.coordinate = some c ∧
      alookup site1.id ((insert emptyStore site1).2).hashes =
        some (flatten site1) ∧
      alookup site1.id ((insert emptyStore site1).2).geo = some c :=
  insert_ok_both_writes emptyStore site1 1 rfl

/-- C2 (amended): `insert` on a site lacking a coordinate fails with the
validation error and performs no geo-index write, but the hash write has
already been issued before the validation check: after the failed call the
hash space holds the HMSET of the flattened site, while the geo index, the
capacity ranking, the temporary keys and the expirations are unchanged. -/
theorem insert_no_coordinate (st : Store) (site : Site)
    (h : site.coordinate = none) :
    (insert st site).1 = .error "Coordinate required for site geo insert!" ∧
    ((insert st site).2).geo = st.geo ∧
    ((insert st site).2).ranking = st.ranking ∧
    ((insert st site).2).temps = st.temps ∧
    ((insert st site).2).expirations = st.expirations ∧
    ((insert st site).2).hashes = hmset site.id (flatten site) st.hashes := by
  simp [insert, h]

/-- Witness for `insert_no_coordinate` at a concrete coordinate-less site. -/
theorem insert_no_coordinate_witness :
    (insert emptyStore ⟨9, 4, 6, none⟩).1 =
      .error "Coordinate required for site geo insert!" ∧
    ((insert emptyStore ⟨9, 4, 6, none⟩).2).geo = emptyStore.geo ∧
    ((insert emptyStore ⟨9, 4, 6, none⟩).2).ranking = emptyStore.ranking ∧
    ((insert emptyStore ⟨9, 4, 6, none⟩).2).temps = emptyStore.temps ∧
    ((insert emptyStore ⟨9, 4, 6, none⟩).2).expirations =
      emptyStore.expirations ∧
    ((insert emptyStore ⟨9, 4, 6, none⟩).2).hashes =
      hmset 9 (flatten ⟨9, 4, 6, none⟩) emptyStore.hashes :=
  insert_no_coordinate emptyStore ⟨9, 4, 6, none⟩ rfl

/-- C2 counterexample: on the empty store, inserting the coordinate-less site
`{id := 1, panels := 2, capacity := 3}` fails with the validation error, yet
the failed call has changed the store state — the flat hash record was
written before the check. -/
theorem insert_no_coordinate_counterexample :
    (insert emptyStore ⟨1, 2, 3, none⟩).1 =
      .error "Coordinate required for site geo insert!" ∧
    (insert emptyStore ⟨1, 2, 3, none⟩).2 ≠ emptyStore := by
  refine ⟨rfl, fun hcontra => ?_⟩
  have h1 : (insert emptyStore ⟨1, 2, 3, none⟩).2.hashes =
      [(1, flatten ⟨1, 2, 3, none⟩)] := rfl
  rw [hcontra] at h1
  simp [emptyStore] at h1

/-- C9: the radius unit is lower-cased before it is passed to the store, so
two unit strings with the same lower-casing — such as `"KM"` and `"km"` —
give identical results for both `findByGeo` and
`findByGeoWithExcessCapacity`. -/
theorem unit_case_insensitive (gs : GeoSem) (st : Store) (lat lng radius : ℚ)
    (u1 u2 : String) (h : jsToLowerCase u1 = jsToLowerCase u2) :
    findByGeo gs st lat lng radius u1 = findByGeo gs st lat lng radius u2 ∧
    findByGeoWithExcessCapacity gs st lat lng radius u1 =
      findByGeoWithExcessCapacity gs st lat lng radius u2 := by
  constructor
  · simp only [findByGeo, h]
  · simp only [findByGeoWithExcessCapacity, h]

/-- Witness for `unit_case_insensitive`: `"KM"` and `"km"` on a concrete
store. -/
theorem unit_case_insensitive_witness :
    findByGeo gsTrue stEx 0 0 5 "KM" = findByGeo gsTrue stEx 0 0 5 "km" ∧
    findByGeoWithExcessCapacity gsTrue stEx 0 0 5 "KM" =
      findByGeoWithExcessCapacity gsTrue stEx 0 0 5 "km" :=
  unit_case_insensitive gsTrue stEx 0 0 5 "KM" "km" (by decide)

/-- The excess-capacity query reduces to: range-by-score over the `WEIGHTS 0
1` intersection of the stored radius set with the capacity ranking, then the
hash-fetch loop. -/
theorem findByGeoWithExcessCapacity_run (gs : GeoSem) (st : Store)
    (lat lng radius : ℚ) (radiusUnit : String) :
    (findByGeoWithExcessCapacity gs st lat lng radius radiusUnit).1 =
      fetchSites st.hashes (zrangebyscoreFrom
        (zinterstoreW01
          (georadiusStore gs st.geo lng lat radius (jsToLowerCase radiusUnit))
          st.ranking)
        capacityThreshold) := by
  simp only [findByGeoWithExcessCapacity, tget_aset_self]

/-- C1: `findByGeoWithExcessCapacity` returns exactly the decoded sites whose
id is both within the given radius of the point in the geo index and present
in the capacity ranking with score at least the inclusive threshold 0.2 (and
whose hash record exists); every member of the `WEIGHTS 0 1` intersection
carries purely its capacity-ranking score, so radius-set membership acts only
as a filter and a site outside the radius never appears, however high its
ranking score. -/
theorem findByGeoWithExcessCapacity_correct (gs : GeoSem) (st : Store)
    (lat lng radius : ℚ) (radiusUnit : String) :
    (∀ site,
      site ∈ (findByGeoWithExcessCapacity gs st lat lng radius radiusUnit).1 ↔
      ∃ id pos rs h,
        (id, pos) ∈ st.geo ∧
        gs.within lng lat pos radius (jsToLowerCase radiusUnit) = true ∧
        alookup id st.ranking = some rs ∧
        capacityThreshold ≤ rs ∧
        alookup id st.hashes = some h ∧
        site = remap h) ∧
    (∀ id s,
      (id, s) ∈ zinterstoreW01
        (georadiusStore gs st.geo lng lat radius (jsToLowerCase radiusUnit))
        st.ranking →
      alookup id st.ranking = some s) := by
  constructor
  · intro site
    rw [findByGeoWithExcessCapacity_run, mem_fetchSites]
    constructor
    · rintro ⟨id, hid, h, hl, he⟩
      rw [mem_zrangebyscoreFrom] at hid
      obtain ⟨s, hmem, hth⟩ := hid
      rw [mem_zinterstoreW01] at hmem
      obtain ⟨s1, hga, s2, hrank, rfl⟩ := hmem
      rw [mem_georadiusStore] at hga
      obtain ⟨pos, hgeo, hw, rfl⟩ := hga
      rw [zero_mul, one_mul, zero_add] at hth
      exact ⟨id, pos, s2, h, hgeo, hw, hrank, hth, hl, he⟩
    · rintro ⟨id, pos, rs, h, hgeo, hw, hrank, hth, hl, he⟩
      refine ⟨id, ?_, h, hl, he⟩
      rw [mem_zrangebyscoreFrom]
      refine ⟨0 * gs.score pos + 1 * rs, ?_, ?_⟩
      · rw [mem_zinterstoreW01]
        exact ⟨gs.score pos,
          by rw [mem_georadiusStore]; exact ⟨pos, hgeo, hw, rfl⟩,
          rs, hrank, rfl⟩
      · rw [zero_mul, one_mul, zero_add]
        exact hth
  · intro id s hmem
    rw [mem_zinterstoreW01] at hmem
    obtain ⟨s1, _, s2, hb, rfl⟩ := hmem
    rw [zero_mul, one_mul, zero_add]
    exact hb

/-- Witness for `findByGeoWithExcessCapacity_correct`: on the concrete store
`stEx` (where `site1` is in radius with ranking score 1 ≥ 0.2), the decoded
`site1` is returned. -/
theorem findByGeoWithExcessCapacity_correct_witness :
    remap (flatten site1) ∈
      (findByGeoWithExcessCapacity gsTrue stEx 0 0 5 "KM").1 :=
  ((findByGeoWithExcessCapacity_correct gsTrue stEx 0 0 5 "KM").1
      (remap (flatten site1))).mpr
    ⟨1, ⟨0, 0⟩, 1, flatten site1, by simp [stEx], rfl,
      by simp [stEx, alookup], by norm_num [capacityThreshold],
      by simp [stEx, alookup], rfl⟩

theorem alookup_none_of_forall_ne {κ α : Type} [DecidableEq κ] {k : κ}
    {l : List (κ × α)} (h : ∀ p ∈ l, p.1 ≠ k) : alookup k l = none := by
  induction l with
  | nil => rfl
  | cons p rest ih =>
      rw [alookup, if_neg (h p (List.mem_cons_self p rest))]
      exact ih (fun q hq => h q (List.mem_cons_of_mem p hq))

/-- Setting two keys larger than every key of the list appends two fresh
entries. -/
theorem aset_fresh_append {α : Type} {l : List (Nat × α)} {n : Nat}
    (h : ∀ k ∈ l.map Prod.fst, k < n) (v1 v2 : α) :
    aset (n + 1) v2 (aset n v1 l) = l ++ [(n, v1), (n + 1, v2)] := by
  have h1 : alookup n l = none :=
    alookup_none_of_forall_ne (fun p hp =>
      Nat.ne_of_lt (h p.1 (List.mem_map_of_mem Prod.fst hp)))
  have h1' : alookup (n + 1) l = none :=
    alookup_none_of_forall_ne (fun p hp => by
      have := h p.1 (List.mem_map_of_mem Prod.fst hp)
      omega)
  rw [aset_of_alookup_none v1 h1]
  have h2 : alookup (n + 1) (l ++ [(n, v1)]) = none := by
    rw [alookup_append_of_none _ h1']
    have hne : n ≠ n + 1 := by omega
    simp [alookup, hne]
  rw [aset_of_alookup_none v2 h2, List.append_assoc]
  rfl

/-- C8: no read operation modifies site data — `findById`, `findAll` and
`findByGeo` leave the entire store unchanged; `findByGeoWithExcessCapacity`
(on any store whose fresh-name counter dominates the existing temporary
keys, as the generator guarantees) changes nothing except appending the two
freshly generated temporary keys, each with a 30-second expiration recorded
in the same batch that populates it and with no deletion of any key, so the
site hashes, the geo index and the capacity ranking are never updated or
deleted by any of the read operations; and the only writing operation,
`insert`, never touches the capacity ranking and never deletes a hash record
or a geo entry (every id present before an insert is still present after
it). -/
theorem reads_frame :
    (∀ (st : Store) (id : Int), (findById st id).2 = st) ∧
    (∀ st : Store, (findAll st).2 = st) ∧
    (∀ (gs : GeoSem) (st : Store) (lat lng radius : ℚ) (u : String),
      (findByGeo gs st lat lng radius u).2 = st) ∧
    (∀ (gs : GeoSem) (st : Store) (lat lng radius : ℚ) (u : String),
      (∀ k ∈ st.temps.map Prod.fst, k < st.nextTemp) →
      (∀ k ∈ st.expirations.map Prod.fst, k < st.nextTemp) →
      ∃ v1 v2,
        (findByGeoWithExcessCapacity gs st lat lng radius u).2 =
          { st with
              temps := st.temps ++ [(st.nextTemp, v1), (st.nextTemp + 1, v2)]
              expirations := st.expirations ++
                [(st.nextTemp, 30), (st.nextTemp + 1, 30)]
              nextTemp := st.nextTemp + 2 }) ∧
    (∀ (st : Store) (site : Site),
      ((insert st site).2).ranking = st.ranking ∧
      ((insert st site).2).temps = st.temps ∧
      (∀ id, (alookup id st.hashes).isSome →
        (alookup id ((insert st site).2).hashes).isSome) ∧
      (∀ id, (alookup id st.geo).isSome →
        (alookup id ((insert st site).2).geo).isSome)) := by
  refine ⟨fun st id => rfl, fun st => rfl, fun gs st lat lng radius u => rfl,
    fun gs st lat lng radius u ht he => ?_, fun st site => ?_⟩
  case refine_2 =>
    have hhash : ((insert st site).2).hashes =
        hmset site.id (flatten site) st.hashes := by
      rcases hc : site.coordinate with _ | c <;> simp [insert, hc]
    refine ⟨?_, ?_, ?_, ?_⟩
    · rcases hc : site.coordinate with _ | c <;> simp [insert, hc]
    · rcases hc : site.coordinate with _ | c <;> simp [insert, hc]
    · intro id hsome
      rw [hhash]
      by_cases hid : id = site.id
      · subst hid
        rw [alookup_hmset_self]
        rfl
      · rw [alookup_hmset_ne _ _ hid]
        exact hsome
    · intro id hsome
      rcases hc : site.coordinate with _ | c
      · simpa [insert, hc] using hsome
      · simp only [insert, hc, geoadd]
        by_cases hid : id = site.id
        · subst hid
          rw [alookup_aset_self]
          rfl
        · rw [alookup_aset_ne _ _ hid]
          exact hsome
  refine ⟨georadiusStore gs st.geo lng lat radius (jsToLowerCase u),
    zinterstoreW01
      (georadiusStore gs st.geo lng lat radius (jsToLowerCase u))
      st.ranking, ?_⟩
  have e1 := aset_fresh_append ht
    (georadiusStore gs st.geo lng lat radius (jsToLowerCase u))
    (zinterstoreW01
      (georadiusStore gs st.geo lng lat radius (jsToLowerCase u))
      st.ranking)
  have e2 := aset_fresh_append he (30 : Nat) (30 : Nat)
  simp only [findByGeoWithExcessCapacity, tget_aset_self]
  rw [e1, e2]

/-- Witness for `reads_frame` on the empty store: the excess-capacity query
leaves only the two fresh temporary keys with their expirations, and the
plain reads return the store unchanged. -/
theorem reads_frame_witness :
    (findById emptyStore 3).2 = emptyStore ∧
    (findAll emptyStore).2 = emptyStore ∧
    (findByGeo gsTrue emptyStore 0 0 1 "km").2 = emptyStore ∧
    ∃ v1 v2,
      (findByGeoWithExcessCapacity gsTrue emptyStore 0 0 1 "km").2 =
        { emptyStore with
            temps := emptyStore.temps ++
              [(emptyStore.nextTemp, v1), (emptyStore.nextTemp + 1, v2)]
            expirations := emptyStore.expirations ++
              [(emptyStore.nextTemp, 30), (emptyStore.nextTemp + 1, 30)]
            nextTemp := emptyStore.nextTemp + 2 } :=
  ⟨reads_frame.1 emptyStore 3, reads_frame.2.1 emptyStore,
    reads_frame.2.2.1 gsTrue emptyStore 0 0 1 "km",
    reads_frame.2.2.2.1 gsTrue emptyStore 0 0 1 "km"
      (by simp [emptyStore]) (by simp [emptyStore])⟩

theorem alookup_keyed_map (sites : List Site)
    (hnd : (sites.map Site.id).Nodup) :
    ∀ s ∈ sites,
      alookup s.id (sites.map (fun t => (t.id, flatten t))) =
        some (flatten s) := by
  induction sites with
  | nil => exact fun s hs => absurd hs (List.not_mem_nil s)
  | cons t rest ih =>
      intro s hs
      obtain ⟨hnotin, hnd'⟩ := List.nodup_cons.mp hnd
      rcases List.mem_cons.mp hs with rfl | hmem
      · simp [List.map_cons, alookup]
      · have hne : t.id ≠ s.id :=
          fun heq => hnotin (heq ▸ List.mem_map_of_mem Site.id hmem)
        simp [List.map_cons, alookup, hne, ih hnd' s hmem]

theorem fetchSites_of_found (hashes : List (Int × SiteHash)) :
    ∀ l : List Site,
      (∀ s ∈ l, alookup s.id hashes = some (flatten s)) →
      fetchSites hashes (l.map Site.id) =
        l.map (fun s => remap (flatten s)) := by
  intro l
  induction l with
  | nil => intro _; rfl
  | cons t rest ih =>
      intro h
      rw [List.map_cons, fetchSites, h t (List.mem_cons_self t rest),
        ih (fun s hs => h s (List.mem_cons_of_mem t hs)), List.map_cons]

/-- Inserting sites whose ids are fresh and distinct, each with a coordinate,
appends their hash records and geo entries in order and leaves the capacity
ranking unchanged. -/
theorem insertAll_fresh (sites : List Site) :
    ∀ st : Store,
      (∀ s ∈ sites, ∃ c, s.coordinate = some c) →
      (∀ s ∈ sites, alookup s.id st.hashes = none) →
      (∀ s ∈ sites, alookup s.id st.geo = none) →
      (sites.map Site.id).Nodup →
      (insertAll st sites).hashes =
        st.hashes ++ sites.map (fun s => (s.id, flatten s)) ∧
      (insertAll st sites).geo =
        st.geo ++ sites.map (fun s => (s.id, s.coordinate.getD ⟨0, 0⟩)) ∧
      (insertAll st sites).ranking = st.ranking := by
  induction sites with
  | nil =>
      intro st _ _ _ _
      simp [insertAll]
  | cons s rest ih =>
      intro st hco hh hg hnd
      obtain ⟨c, hc⟩ := hco s (List.mem_cons_self s rest)
      obtain ⟨hnotin, hnd'⟩ := List.nodup_cons.mp hnd
      have hne : ∀ t ∈ rest, s.id ≠ t.id :=
        fun t ht heq => hnotin (heq ▸ List.mem_map_of_mem Site.id ht)
      have hstep : (insert st s).2 =
          { st with
              hashes := st.hashes ++ [(s.id, flatten s)]
              geo := st.geo ++ [(s.id, c)] } := by
        simp only [insert, hc, geoadd]
        rw [hmset_of_alookup_none (hh s (List.mem_cons_self s rest)),
          aset_of_alookup_none c (hg s (List.mem_cons_self s rest))]
      rw [insertAll, hstep]
      have hh' : ∀ t ∈ rest,
          alookup t.id (st.hashes ++ [(s.id, flatten s)]) = none := by
        intro t ht
        rw [alookup_append_of_none _ (hh t (List.mem_cons_of_mem s ht))]
        simp [alookup, hne t ht]
      have hg' : ∀ t ∈ rest,
          alookup t.id (st.geo ++ [(s.id, c)]) = none := by
        intro t ht
        rw [alookup_append_of_none _ (hg t (List.mem_cons_of_mem s ht))]
        simp [alookup, hne t ht]
      obtain ⟨e1, e2, e3⟩ :=
        ih { st with
              hashes := st.hashes ++ [(s.id, flatten s)]
              geo := st.geo ++ [(s.id, c)] }
          (fun t ht => hco t (List.mem_cons_of_mem s ht)) hh' hg' hnd'
      refine ⟨?_, ?_, ?_⟩
      · rw [e1]
        simp [List.append_assoc]
      · rw [e2]
        simp [List.append_assoc, hc]
      · exact e3

/-- C5: `findAll` returns, in the order the geo index yields the ids, the
decoded site of every id whose hash record exists, skipping ids whose lookup
returns the sentinel; and after inserting sites with distinct ids and
coordinates into the empty store, it returns exactly those sites, each equal
to its decoded original, in insertion order. -/
theorem findAll_spec :
    (∀ st : Store,
      (findAll st).1 =
        (zrangeAll st.geo).filterMap
          (fun id => (alookup id st.hashes).map remap)) ∧
    (∀ sites : List Site,
      (∀ s ∈ sites, ∃ c, s.coordinate = some c) →
      (sites.map Site.id).Nodup →
      (findAll (insertAll emptyStore sites)).1 =
        sites.map (fun s => remap (flatten s))) := by
  constructor
  · intro st
    simp [findAll, fetchSites_eq_filterMap]
  · intro sites hco hnd
    obtain ⟨e1, e2, e3⟩ := insertAll_fresh sites emptyStore hco
      (fun s _ => rfl) (fun s _ => rfl) hnd
    have hhash : (insertAll emptyStore sites).hashes =
        sites.map (fun t => (t.id, flatten t)) := by
      rw [e1]
      rfl
    have hgeo : (insertAll emptyStore sites).geo =
        sites.map (fun t => (t.id, t.coordinate.getD ⟨0, 0⟩)) := by
      rw [e2]
      rfl
    show fetchSites (insertAll emptyStore sites).hashes
        (zrangeAll (insertAll emptyStore sites).geo) = _
    rw [hhash, hgeo]
    have hz : zrangeAll
        (sites.map (fun t => (t.id, t.coordinate.getD ⟨0, 0⟩))) =
        sites.map Site.id := by
      simp [zrangeAll, List.map_map]
    rw [hz]
    exact fetchSites_of_found _ sites (alookup_keyed_map sites hnd)

/-- Witness for `findAll_spec`: inserting `site1` and `site2` into the empty
store, `findAll` returns exactly their decoded originals in order. -/
theorem findAll_spec_witness :
    (findAll (insertAll emptyStore [site1, site2])).1 =
      [site1, site2].map (fun s => remap (flatten s)) :=
  findAll_spec.2 [site1, site2]
    (by
      intro s hs
      rcases List.mem_cons.mp hs with rfl | hs
      · exact ⟨⟨0, 0⟩, rfl⟩
      rcases List.mem_cons.mp hs with rfl | hs
      · exact ⟨⟨1, 2⟩, rfl⟩
      · cases hs)
    (by decide)

end SiteGeoDAO
